import Mathlib

/-!
Formal model of the EconFinancas4 application (src/EconFinancas4/app.py).

The application is a Flask CRUD server over two SQLAlchemy tables,
`category` and `expense`.  The database is modelled as a `DB` record
holding the two tables as lists (list order models rowid/insertion
order); every request handler is translated into a pure Lean function
from the request data and the current database to the new database, an
HTTP status code, and an optional serialized payload.

Numbers.  Values that the code passes through Python's `float`
(`value`, `budget`) live in `PyFloat`: a finite value — idealized as an
exact rational, the only idealization being that IEEE rounding and the
saturation of enormous finite literals to infinity are not modelled,
neither of which changes any branch the handlers take — or one of the
special values `inf`, `-inf`, `nan`.  `float` succeeds on numbers and
booleans (a JSON integer beyond the double range raises OverflowError),
parses strings by CPython's grammar — optional surrounding whitespace,
optional sign, then `inf`/`infinity`/`nan` case-insensitively or a
decimal with optional single underscores between digits and an optional
exponent part — raising `ValueError` on anything else, and raises
`TypeError` on `None`, lists and other types.  The string grammar is
exact for ASCII strings; CPython additionally accepts non-ASCII Unicode
decimal digits and spaces, which are outside this model, so the claims
about unparseable strings carry an ASCII hypothesis.  `TypeError` and
`OverflowError` are not caught by the handlers' `except ValueError`
clauses, so they escape to Flask and produce an HTTP 500 response
without committing anything.

Category deletion.  The handler reassigns the expenses of the deleted
category in the session and deletes the category row in the same flush.
The `Category.expenses` relationship has no delete cascade and no
passive_deletes, so SQLAlchemy's flush-time dependency processing loads
the deleted row's expense collection (the reassignment UPDATEs are not
yet emitted, so the collection still holds the old rows) and sets each
child's `category_id` to None, clobbering the in-session reassignment.
`Expense.category_id` is NOT NULL, so whenever the category still has
expenses the commit raises IntegrityError and Flask answers 500 with
the transaction rolled back; only the separately committed on-demand
creation of "Outros" survives.  A category with no expenses is deleted
normally with 200.

String-valued fields (`name`, `date`, `category`, `description`) are
modelled as `Option String`, with `none` standing for both an absent
key and an explicit JSON `null` (both make `data.get(...)` return
Python `None`).
-/

/-- A Python float: a finite value (idealized as an exact rational) or
one of the special values. -/
inductive PyFloat where
  | finite : ℚ → PyFloat
  | pinf : PyFloat
  | ninf : PyFloat
  | nan : PyFloat
deriving DecidableEq

/-- Python `x <= 0` on a float: False for `inf` and for `nan`. -/
def PyFloat.leZero : PyFloat → Bool
  | .finite q => q ≤ 0
  | .pinf => false
  | .ninf => true
  | .nan => false

/-- Python `x < 0` on a float: False for `inf` and for `nan`. -/
def PyFloat.ltZero : PyFloat → Bool
  | .finite q => q < 0
  | .pinf => false
  | .ninf => true
  | .nan => false

/-- Python truthiness of a float: only 0.0 is falsy (`nan` is truthy). -/
def PyFloat.truthy : PyFloat → Bool
  | .finite q => q != 0
  | _ => true

/-- Errors raised by Python's `float` builtin. -/
inductive PyErr where
  | valueError : PyErr
  | typeError : PyErr
  | overflowError : PyErr
deriving DecidableEq

/-- A JSON value, as obtained from `request.get_json()` for the numeric
fields (`value` of an expense, `budget` of a category).  A JSON integer
literal becomes a Python int (`jint`), any other JSON numeral becomes a
Python float (`jfloat`). -/
inductive JVal where
  | jnull : JVal
  | jbool : Bool → JVal
  | jint : ℤ → JVal
  | jfloat : PyFloat → JVal
  | jstr : String → JVal
  | jarr : List JVal → JVal

/-- Numeric value of a list of decimal digit characters. -/
def digitsToNat (cs : List Char) : Nat :=
  cs.foldl (fun a c => 10 * a + (c.toNat - 48)) 0

/-- The ASCII characters `float` strips around its argument
(CPython's Py_UNICODE_ISSPACE restricted to ASCII: 0x09-0x0D,
0x1C-0x1F, space). -/
def isPySpace (c : Char) : Bool :=
  (9 ≤ c.toNat ∧ c.toNat ≤ 13) ∨ (28 ≤ c.toNat ∧ c.toNat ≤ 31) ∨ c.toNat = 32

/-- Strip leading and trailing float-whitespace. -/
def pyStrip (cs : List Char) : List Char :=
  ((cs.dropWhile isPySpace).reverse.dropWhile isPySpace).reverse

/-- After an initial digit: a sequence of digits with single
underscores allowed strictly between digits (PEP 515). -/
def digitTail : List Char → Bool
  | [] => true
  | '_' :: c :: rest => c.isDigit && digitTail rest
  | '_' :: [] => false
  | c :: rest => c.isDigit && digitTail rest

/-- A nonempty digit group with single underscores between digits. -/
def isDigitPart : List Char → Bool
  | [] => false
  | c :: rest => c.isDigit && digitTail rest

/-- Numeric value of a digit group, ignoring underscores. -/
def digitPartVal (cs : List Char) : Nat :=
  digitsToNat (cs.filter (fun c => c ≠ '_'))

/-- Number of digits of a digit group, ignoring underscores. -/
def digitPartLen (cs : List Char) : Nat :=
  (cs.filter (fun c => c ≠ '_')).length

/-- Mantissa of a float literal: digits, or digits `.` digits with at
least one digit overall. -/
def parseMantissa (cs : List Char) : Option ℚ :=
  let ip := cs.takeWhile (fun c => c ≠ '.')
  match cs.dropWhile (fun c => c ≠ '.') with
  | [] => if isDigitPart ip then some (digitPartVal ip : ℚ) else none
  | _ :: fp =>
      if (ip = [] ∨ isDigitPart ip = true) ∧ (fp = [] ∨ isDigitPart fp = true) ∧
          ¬(ip = [] ∧ fp = []) then
        some ((digitPartVal ip : ℚ) +
          (digitPartVal fp : ℚ) / ((10 ^ digitPartLen fp : ℕ) : ℚ))
      else none

/-- Scale a mantissa by the exponent part of a float literal: optional
sign then digits. -/
def applyExponent (m : ℚ) (cs : List Char) : Option ℚ :=
  match cs with
  | '+' :: rest =>
      if isDigitPart rest then some (m * ((10 ^ digitPartVal rest : ℕ) : ℚ)) else none
  | '-' :: rest =>
      if isDigitPart rest then some (m / ((10 ^ digitPartVal rest : ℕ) : ℚ)) else none
  | rest =>
      if isDigitPart rest then some (m * ((10 ^ digitPartVal rest : ℕ) : ℚ)) else none

/-- An unsigned decimal float literal: mantissa with an optional
`e`/`E` exponent. -/
def parseDec (cs : List Char) : Option ℚ :=
  let mant := cs.takeWhile (fun c => c ≠ 'e' ∧ c ≠ 'E')
  match cs.dropWhile (fun c => c ≠ 'e' ∧ c ≠ 'E') with
  | [] => parseMantissa mant
  | _ :: ex =>
      match parseMantissa mant with
      | some m => applyExponent m ex
      | none => none

/-- Python `float` applied to a string (exact on ASCII strings):
whitespace stripped, optional sign, then `inf`/`infinity`/`nan`
case-insensitively or a decimal literal; `none` when it raises
`ValueError`. -/
def pyFloatStr (s : String) : Option PyFloat :=
  let cs := pyStrip s.toList
  let body := match cs with
    | '+' :: rest => rest
    | '-' :: rest => rest
    | rest => rest
  let neg := match cs with
    | '-' :: _ => true
    | _ => false
  let low := body.map Char.toLower
  if low = "inf".toList ∨ low = "infinity".toList then
    some (if neg then .ninf else .pinf)
  else if low = "nan".toList then some .nan
  else
    match parseDec body with
    | some q => some (.finite (if neg then -q else q))
    | none => none

/-- True when every character of the string is ASCII (the fragment on
which `pyFloatStr` is exact). -/
def asciiOnly (s : String) : Bool := s.toList.all (fun c => c.toNat < 128)

/-- Least magnitude at which CPython's `float(int)` raises
OverflowError: integers of absolute value at least 2^1024 − 2^970 round
past the largest finite double. -/
def floatOverflowBound : ℤ := 2 ^ 1024 - 2 ^ 970

/-- Python `float` applied to a JSON value: floats pass through,
booleans convert, ints convert unless they exceed the double range
(OverflowError), strings are parsed (`ValueError` on failure), `None`
and lists raise `TypeError`. -/
def pyFloat : JVal → Except PyErr PyFloat
  | .jint n =>
      if n ≤ -floatOverflowBound ∨ floatOverflowBound ≤ n then .error .overflowError
      else .ok (.finite n)
  | .jfloat f => .ok f
  | .jbool b => .ok (.finite (if b then 1 else 0))
  | .jstr s =>
      match pyFloatStr s with
      | some f => .ok f
      | none => .error .valueError
  | .jnull => .error .typeError
  | .jarr _ => .error .typeError

/-- Python truthiness of a JSON value (`bool(x)`). -/
def JVal.truthy : JVal → Bool
  | .jnull => false
  | .jbool b => b
  | .jint n => n != 0
  | .jfloat f => f.truthy
  | .jstr s => s != ""
  | .jarr l => !l.isEmpty

/-- Truthiness of `data.get(field)` for a string-valued field: an absent
key (Python `None`) and the empty string are falsy. -/
def optTruthy : Option String → Bool
  | none => false
  | some s => s != ""

/-- A row of the `category` table. -/
structure Category where
  id : Nat
  name : String
  budget : PyFloat
deriving DecidableEq

/-- A row of the `expense` table. -/
structure Expense where
  id : String
  value : PyFloat
  date : String
  description : Option String
  category_id : Nat
deriving DecidableEq

/-- The persistent state: both tables, plus the autoincrement counter
for category primary keys. -/
structure DB where
  categories : List Category
  expenses : List Expense
  nextCatId : Nat
deriving DecidableEq

/-- Request body of POST /api/categories and PUT /api/categories/id. -/
structure CatReq where
  name : Option String
  budget : Option JVal

/-- Request body of POST /api/expenses and PUT /api/expenses/id. -/
structure ExpReq where
  value : Option JVal
  date : Option String
  category : Option String
  description : Option String

/-- Serialized expense (`Expense.to_dict`): the `category` field is the
name of the row the foreign key points at, `none` if the reference is
broken. -/
structure ExpenseOut where
  id : String
  value : PyFloat
  date : String
  description : Option String
  category : Option String
  category_id : Nat
deriving DecidableEq

/-- Serialization `Expense.to_dict`, resolving the category name
through the `category_obj` relationship. -/
def expenseToDict (db : DB) (e : Expense) : ExpenseOut :=
  ⟨e.id, e.value, e.date, e.description,
    (db.categories.find? (fun c => c.id == e.category_id)).map Category.name,
    e.category_id⟩

/-- GET /api/categories: every category serialized as {id, name, budget}
(the record itself in this model). -/
def handle_categories_get (db : DB) : List Category := db.categories

/-- POST /api/categories.  TypeError and OverflowError from `float` are
uncaught, giving 500 with nothing committed. -/
def handle_categories_post (req : CatReq) (db : DB) : DB × Nat × Option Category :=
  let name := req.name.getD ""
  if name = "" then (db, 400, none)
  else if (db.categories.find? (fun c => c.name == name)).isSome then (db, 409, none)
  else
    match pyFloat (req.budget.getD (.jfloat (.finite 0))) with
    | .error .typeError => (db, 500, none)
    | .error .overflowError => (db, 500, none)
    | .error .valueError => (db, 400, none)
    | .ok b =>
        if b.ltZero then (db, 400, none)
        else
          let c : Category := ⟨db.nextCatId, name, b⟩
          (⟨db.categories ++ [c], db.expenses, db.nextCatId + 1⟩, 201, some c)

/-- PUT /api/categories/id.  `data.get('budget')` yields Python `None`
both for an absent key and an explicit JSON null, and the handler skips
the budget entirely in that case (`if new_budget is not None`). -/
def handle_category_put (cid : Nat) (req : CatReq) (db : DB) : DB × Nat × Option Category :=
  match db.categories.find? (fun c => c.id == cid) with
  | none => (db, 404, none)
  | some cat =>
      let newName := req.name.getD ""
      if newName = "" then (db, 400, none)
      else if (db.categories.find? (fun c => c.name == newName)).isSome ∧ newName ≠ cat.name then
        (db, 409, none)
      else
        match req.budget with
        | none =>
            let c : Category := ⟨cat.id, newName, cat.budget⟩
            (⟨db.categories.map (fun x => if x.id == cat.id then c else x), db.expenses, db.nextCatId⟩,
              200, some c)
        | some .jnull =>
            let c : Category := ⟨cat.id, newName, cat.budget⟩
            (⟨db.categories.map (fun x => if x.id == cat.id then c else x), db.expenses, db.nextCatId⟩,
              200, some c)
        | some bj =>
            match pyFloat bj with
            | .error .typeError => (db, 500, none)
            | .error .overflowError => (db, 500, none)
            | .error .valueError => (db, 400, none)
            | .ok b =>
                if b.ltZero then (db, 400, none)
                else
                  let c : Category := ⟨cat.id, newName, b⟩
                  (⟨db.categories.map (fun x => if x.id == cat.id then c else x), db.expenses, db.nextCatId⟩,
                    200, some c)

/-- Resolve the category named "Outros", creating it with budget 0 if it
is absent; the creation is committed on its own (`db.session.commit()`
inside the if), so it persists even when the delete later fails. -/
def resolveOutros (db : DB) : DB × Category :=
  match db.categories.find? (fun c => c.name == "Outros") with
  | some c => (db, c)
  | none =>
      let c : Category := ⟨db.nextCatId, "Outros", .finite 0⟩
      (⟨db.categories ++ [c], db.expenses, db.nextCatId + 1⟩, c)

/-- DELETE /api/categories/id.  After resolving "Outros", the handler
reassigns the expenses and deletes the category in one flush; the ORM's
delete-time de-association then nulls the NOT NULL `category_id` of
every expense still belonging to the category (clobbering the pending
reassignment), so the commit raises IntegrityError whenever the
category still has expenses: 500, transaction rolled back, only a newly
created "Outros" (committed separately) kept.  A category without
expenses is removed with 200. -/
def handle_category_delete (cid : Nat) (db : DB) : DB × Nat :=
  match db.categories.find? (fun c => c.id == cid) with
  | none => (db, 404)
  | some cat =>
      let r := resolveOutros db
      if db.expenses.any (fun e => e.category_id == cat.id) then
        (r.1, 500)
      else
        (⟨r.1.categories.filter (fun c => c.id != cat.id), r.1.expenses, r.1.nextCatId⟩, 200)

/-- Lexicographic order on character lists, the comparison SQLite's
default BINARY collation performs on the ASCII `YYYY-MM-DD` date
strings. -/
def charListLe : List Char → List Char → Bool
  | [], _ => true
  | _ :: _, [] => false
  | a :: as, b :: bs => if a = b then charListLe as bs else decide (a < b)

/-- Sort order of GET /api/expenses: `order_by(Expense.date.desc())`,
i.e. dates string-lexicographically descending. -/
def dateDesc (a b : Expense) : Prop := charListLe b.date.toList a.date.toList = true

instance : DecidableRel dateDesc := fun a b =>
  inferInstanceAs (Decidable (charListLe b.date.toList a.date.toList = true))

/-- GET /api/expenses with the optional `category` and `date` query
parameters (an empty or absent parameter is falsy and applies no
filter). -/
def handle_expenses_get (catF dateF : Option String) (db : DB) : Nat × Option (List ExpenseOut) :=
  if optTruthy catF then
    match db.categories.find? (fun c => c.name == catF.getD "") with
    | none => (404, none)
    | some co =>
        let l1 := db.expenses.filter (fun e => e.category_id == co.id)
        let l2 := if optTruthy dateF then l1.filter (fun e => e.date == dateF.getD "") else l1
        (200, some ((l2.insertionSort dateDesc).map (expenseToDict db)))
  else
    let l2 := if optTruthy dateF then db.expenses.filter (fun e => e.date == dateF.getD "") else db.expenses
    (200, some ((l2.insertionSort dateDesc).map (expenseToDict db)))

/-- POST /api/expenses.  `newId` is the fresh UUID generated for the new
row. -/
def handle_expenses_post (req : ExpReq) (newId : String) (db : DB) : DB × Nat × Option ExpenseOut :=
  if ¬((req.value.getD .jnull).truthy ∧ optTruthy req.date ∧ optTruthy req.category) then
    (db, 400, none)
  else
    match pyFloat (req.value.getD .jnull) with
    | .error .typeError => (db, 500, none)
    | .error .overflowError => (db, 500, none)
    | .error .valueError => (db, 400, none)
    | .ok v =>
        if v.leZero then (db, 400, none)
        else
          let r : DB × Category :=
            match db.categories.find? (fun c => c.name == req.category.getD "") with
            | some c => (db, c)
            | none => resolveOutros db
          let e : Expense := ⟨newId, v, req.date.getD "", req.description, r.2.id⟩
          let db2 : DB := ⟨r.1.categories, r.1.expenses ++ [e], r.1.nextCatId⟩
          (db2, 201, some (expenseToDict db2 e))

/-- PUT /api/expenses/id. -/
def handle_expense_put (eid : String) (req : ExpReq) (db : DB) : DB × Nat × Option ExpenseOut :=
  match db.expenses.find? (fun e => e.id == eid) with
  | none => (db, 404, none)
  | some exp =>
      if ¬((req.value.getD .jnull).truthy ∧ optTruthy req.date ∧ optTruthy req.category) then
        (db, 400, none)
      else
        match pyFloat (req.value.getD .jnull) with
        | .error .typeError => (db, 500, none)
        | .error .overflowError => (db, 500, none)
        | .error .valueError => (db, 400, none)
        | .ok v =>
            if v.leZero then (db, 400, none)
            else
              match db.categories.find? (fun c => c.name == req.category.getD "") with
              | none => (db, 404, none)
              | some c =>
                  let e : Expense := ⟨exp.id, v, req.date.getD "", req.description, c.id⟩
                  let db1 : DB :=
                    ⟨db.categories, db.expenses.map (fun x => if x.id == exp.id then e else x), db.nextCatId⟩
                  (db1, 200, some (expenseToDict db1 e))

/-- DELETE /api/expenses/id. -/
def handle_expense_delete (eid : String) (db : DB) : DB × Nat :=
  match db.expenses.find? (fun e => e.id == eid) with
  | none => (db, 404)
  | some exp => (⟨db.categories, db.expenses.filter (fun e => e.id != exp.id), db.nextCatId⟩, 200)

/-- DELETE /api/reset_data.  The Boolean argument is the storage-failure
oracle: `false` models the bulk delete and commit succeeding, `true`
models the underlying store raising, in which case the handler rolls the
session back (database unchanged) and answers 500. -/
def reset_data (storageFails : Bool) (db : DB) : DB × Nat × Option String :=
  if storageFails then (db, 500, none)
  else (⟨db.categories, [], db.nextCatId⟩, 200,
    some (toString db.expenses.length ++ " expenses deleted successfully"))

/-- Referential invariant: every expense's foreign key points at an
existing category row. -/
def refInv (db : DB) : Prop := ∀ e ∈ db.expenses, ∃ c ∈ db.categories, c.id = e.category_id

/-- Structural well-formedness the relational store guarantees: primary
keys and names of categories are unique (`unique=True` on `name`), and
primary keys are below the autoincrement counter. -/
def WF (db : DB) : Prop :=
  (db.categories.map Category.id).Nodup ∧
  (db.categories.map Category.name).Nodup ∧
  ∀ c ∈ db.categories, c.id < db.nextCatId

instance (db : DB) : Decidable (refInv db) :=
  inferInstanceAs (Decidable (∀ e ∈ db.expenses, ∃ c ∈ db.categories, c.id = e.category_id))

instance (db : DB) : Decidable (WF db) :=
  inferInstanceAs (Decidable ((db.categories.map Category.id).Nodup ∧
    (db.categories.map Category.name).Nodup ∧ ∀ c ∈ db.categories, c.id < db.nextCatId))

/-- The combined WHERE clause GET /api/expenses builds: a truthy
`category` parameter restricts to the id of the category of that name,
a truthy `date` parameter restricts to that exact date string. -/
def matchesFilters (db : DB) (catF dateF : Option String) (e : Expense) : Bool :=
  (if optTruthy catF then
    match db.categories.find? (fun c => c.name == catF.getD "") with
    | some co => e.category_id == co.id
    | none => false
  else true) &&
  (if optTruthy dateF then e.date == dateF.getD "" else true)

/-- Date-descending order on serialized expenses. -/
def outDateDesc (a b : ExpenseOut) : Prop := charListLe b.date.toList a.date.toList = true

/-- A well-formed sample state: two categories, two expenses. -/
def dbSample : DB :=
  ⟨[⟨1, "Comida", .finite 50⟩, ⟨2, "Outros", .finite 0⟩],
    [⟨"e1", .finite 10, "2024-01-02", none, 1⟩, ⟨"e2", .finite 20, "2024-03-05", some "x", 2⟩], 3⟩

/-- A well-formed state that has no category named "Outros" and no
expenses. -/
def dbNoOutros : DB := ⟨[⟨1, "Comida", .finite 50⟩], [], 2⟩

/-! ### Helper lemmas -/

theorem find_name_eq_none {l : List Category} {s : String} :
    l.find? (fun c => c.name == s) = none ↔ ∀ c ∈ l, c.name ≠ s := by
  rw [List.find?_eq_none]
  simp

theorem find_name_isSome {l : List Category} {s : String} :
    (l.find? (fun c => c.name == s)).isSome = true ↔ ∃ c ∈ l, c.name = s := by
  rw [List.find?_isSome]
  simp

/-- With distinct primary keys, looking a member up by its id finds it. -/
theorem find_id_of_nodup {l : List Category} (h : (l.map Category.id).Nodup)
    {c : Category} (hc : c ∈ l) {n : Nat} (hn : c.id = n) :
    l.find? (fun x : Category => x.id == n) = some c := by
  induction l with
  | nil => cases hc
  | cons a l ih =>
      rw [List.map_cons, List.nodup_cons] at h
      rcases List.mem_cons.mp hc with rfl | hc'
      · exact List.find?_cons_of_pos (p := fun x : Category => x.id == n) l (by simp [hn])
      · have hne : ¬((fun x : Category => x.id == n) a) = true := by
          simp only [beq_iff_eq]
          intro he
          apply h.1
          rw [he, ← hn]
          exact List.mem_map_of_mem Category.id hc'
        rw [List.find?_cons_of_neg (p := fun x : Category => x.id == n) l hne]
        exact ih h.2 hc'

/-- Appending a row with a fresh id: a lookup by that id finds the new row. -/
theorem find_id_append_fresh {l : List Category} {n : Nat} (h : ∀ c ∈ l, c.id < n)
    (c : Category) (hcn : c.id = n) :
    (l ++ [c]).find? (fun x : Category => x.id == n) = some c := by
  induction l with
  | nil => exact List.find?_cons_of_pos (p := fun x : Category => x.id == n) [] (by simp [hcn])
  | cons a l ih =>
      have ha : ¬((fun x : Category => x.id == n) a) = true := by
        simp only [beq_iff_eq]
        have := h a (List.mem_cons_self a l)
        omega
      rw [List.cons_append, List.find?_cons_of_neg (p := fun x : Category => x.id == n) _ ha]
      exact ih fun x hx => h x (List.mem_cons_of_mem a hx)

/-- Distinct primary keys make `Category.id` injective on the table. -/
theorem id_inj_of_nodup {l : List Category} (h : (l.map Category.id).Nodup)
    {a b : Category} (ha : a ∈ l) (hb : b ∈ l) (hab : a.id = b.id) : a = b :=
  List.inj_on_of_nodup_map h ha hb hab

theorem charListLe_total : ∀ as bs : List Char, charListLe as bs = true ∨ charListLe bs as = true := by
  intro as
  induction as with
  | nil => intro bs; left; rfl
  | cons a as ih =>
      intro bs
      cases bs with
      | nil => right; rfl
      | cons b bs =>
          by_cases hab : a = b
          · subst hab
            simpa [charListLe] using ih bs
          · rcases lt_trichotomy a b with h | h | h
            · left; simp [charListLe, hab, h]
            · exact absurd h hab
            · right; simp [charListLe, Ne.symm hab, h]

theorem charListLe_trans :
    ∀ as bs cs : List Char, charListLe as bs = true → charListLe bs cs = true →
      charListLe as cs = true := by
  intro as
  induction as with
  | nil => intro bs cs _ _; rfl
  | cons a as ih =>
      intro bs cs h1 h2
      cases bs with
      | nil => simp [charListLe] at h1
      | cons b bs =>
          cases cs with
          | nil => simp [charListLe] at h2
          | cons c cs =>
              by_cases hab : a = b <;> by_cases hbc : b = c
              · subst hab; subst hbc
                simp only [charListLe, if_pos rfl] at h1 h2 ⊢
                exact ih bs cs h1 h2
              · subst hab
                simp only [charListLe, if_pos rfl] at h1
                simp only [charListLe, if_neg hbc, decide_eq_true_eq] at h2
                simp [charListLe, hbc, h2]
              · subst hbc
                simp only [charListLe, if_neg hab, decide_eq_true_eq] at h1
                simp [charListLe, hab, h1]
              · simp only [charListLe, if_neg hab, decide_eq_true_eq] at h1
                simp only [charListLe, if_neg hbc, decide_eq_true_eq] at h2
                have hac : a < c := lt_trans h1 h2
                simp [charListLe, ne_of_lt hac, hac]

instance : IsTotal Expense dateDesc :=
  ⟨fun a b => charListLe_total b.date.toList a.date.toList⟩

instance : IsTrans Expense dateDesc :=
  ⟨fun _ _ _ h1 h2 => charListLe_trans _ _ _ h2 h1⟩

/-- A successful expense listing contains exactly the serializations of
the stored expenses that pass the requested filters. -/
theorem expenses_get_mem (catF dateF : Option String) (db : DB) (l : List ExpenseOut)
    (x : ExpenseOut) (hl : (handle_expenses_get catF dateF db).2 = some l) :
    x ∈ l ↔ ∃ e ∈ db.expenses,
      matchesFilters db catF dateF e = true ∧ x = expenseToDict db e := by
  by_cases hct : optTruthy catF = true
  · rcases hfc : db.categories.find? (fun c => c.name == catF.getD "") with _ | co
    · simp [handle_expenses_get, hct, hfc] at hl
    · by_cases hdt : optTruthy dateF = true
      · simp only [handle_expenses_get, hct, hfc, hdt, if_true, Option.some.injEq] at hl
        subst hl
        rw [List.mem_map]
        constructor
        · rintro ⟨e, hes, rfl⟩
          rcases List.mem_filter.mp ((List.perm_insertionSort dateDesc _).mem_iff.mp hes) with
            ⟨hef, hdate⟩
          rcases List.mem_filter.mp hef with ⟨hee, hcat⟩
          exact ⟨e, hee, by simp [matchesFilters, hct, hfc, hdt, hcat, hdate], rfl⟩
        · rintro ⟨e, hee, hm, rfl⟩
          simp only [matchesFilters, hct, hfc, if_true, Bool.and_eq_true, hdt] at hm
          refine ⟨e, (List.perm_insertionSort dateDesc _).mem_iff.mpr ?_, rfl⟩
          exact List.mem_filter.mpr ⟨List.mem_filter.mpr ⟨hee, hm.1⟩, hm.2⟩
      · simp only [handle_expenses_get, hct, hfc, hdt, if_true, if_false,
          Option.some.injEq] at hl
        subst hl
        rw [List.mem_map]
        constructor
        · rintro ⟨e, hes, rfl⟩
          rcases List.mem_filter.mp ((List.perm_insertionSort dateDesc _).mem_iff.mp hes) with
            ⟨hee, hcat⟩
          exact ⟨e, hee, by simp [matchesFilters, hct, hfc, hdt, hcat], rfl⟩
        · rintro ⟨e, hee, hm, rfl⟩
          simp only [matchesFilters, hct, hfc, if_true, Bool.and_eq_true, hdt,
            if_false] at hm
          refine ⟨e, (List.perm_insertionSort dateDesc _).mem_iff.mpr ?_, rfl⟩
          exact List.mem_filter.mpr ⟨hee, hm.1⟩
  · by_cases hdt : optTruthy dateF = true
    · simp [handle_expenses_get, hct, hdt] at hl
      subst hl
      rw [List.mem_map]
      constructor
      · rintro ⟨e, hes, rfl⟩
        rcases List.mem_filter.mp ((List.perm_insertionSort dateDesc _).mem_iff.mp hes) with
          ⟨hee, hdate⟩
        exact ⟨e, hee, by simp [matchesFilters, hct, hdt, hdate], rfl⟩
      · rintro ⟨e, hee, hm, rfl⟩
        simp [matchesFilters, hct, hdt] at hm
        refine ⟨e, (List.perm_insertionSort dateDesc _).mem_iff.mpr ?_, rfl⟩
        exact List.mem_filter.mpr ⟨hee, by simp [hm]⟩
    · simp [handle_expenses_get, hct, hdt] at hl
      subst hl
      rw [List.mem_map]
      constructor
      · rintro ⟨e, hes, rfl⟩
        exact ⟨e, (List.perm_insertionSort dateDesc _).mem_iff.mp hes,
          by simp [matchesFilters, hct, hdt], rfl⟩
      · rintro ⟨e, hee, _, rfl⟩
        exact ⟨e, (List.perm_insertionSort dateDesc _).mem_iff.mpr hee, rfl⟩

/-! ### Claims -/

/-- C6: DELETE /api/reset_data deletes every expense as an all-or-nothing
unit and answers 200 with "n expenses deleted successfully"; on storage
failure it rolls back (database unchanged) and answers 500; an immediate
second call reports 0 deleted, and listing expenses afterwards yields the
empty list. -/
theorem c6_reset_data_contract (db : DB) :
    (reset_data false db).1.expenses = [] ∧
    (reset_data false db).2.1 = 200 ∧
    (reset_data false db).2.2 =
      some (toString db.expenses.length ++ " expenses deleted successfully") ∧
    (reset_data true db).1 = db ∧
    (reset_data true db).2.1 = 500 ∧
    (reset_data false (reset_data false db).1).2.2 = some "0 expenses deleted successfully" ∧
    (handle_expenses_get none none (reset_data false db).1).2 = some [] := by
  refine ⟨rfl, rfl, rfl, rfl, rfl, ?_, rfl⟩
  show some (toString (0 : Nat) ++ " expenses deleted successfully") =
    some "0 expenses deleted successfully"
  rfl

/-- C10: a successful DELETE /api/reset_data leaves the category table
(and hence every category's id, name and budget) unchanged. -/
theorem c10_reset_preserves_categories (db : DB) :
    (reset_data false db).1.categories = db.categories ∧
    handle_categories_get (reset_data false db).1 = handle_categories_get db :=
  ⟨rfl, rfl⟩

/-- C3 (counterexample): a POST /api/expenses whose value is a non-empty
JSON array does not parse as a number, yet the request is answered 500
(the `TypeError` from `float` is not caught by `except ValueError`), not
400 as claimed; no expense is persisted. -/
theorem c3_counterexample :
    (handle_expenses_post ⟨some (.jarr [.jint 1]), some "2024-03-01", some "Comida", none⟩
      "u1" dbSample).2.1 = 500 ∧
    (handle_expenses_post ⟨some (.jarr [.jint 1]), some "2024-03-01", some "Comida", none⟩
      "u1" dbSample).2.1 ≠ 400 ∧
    (handle_expenses_post ⟨some (.jarr [.jint 1]), some "2024-03-01", some "Comida", none⟩
      "u1" dbSample).1 = dbSample := by
  decide

/-- C3 (amended): a POST /api/expenses whose value converts to a float
that Python compares `<= 0`, or whose value is an ASCII string `float`
rejects, or whose value is a falsy non-numeric JSON value, is rejected
with 400; a truthy value of non-numeric JSON type (with date and
category present) makes the uncaught `TypeError` produce a 500, and a
JSON integer beyond the double range makes the uncaught `OverflowError`
produce a 500.  In every one of these cases the expense table is
unchanged. -/
theorem c3_amended_create_rejects (req : ExpReq) (newId : String) (db : DB) :
    (∀ v : PyFloat, pyFloat (req.value.getD .jnull) = .ok v → v.leZero = true →
      (handle_expenses_post req newId db).2.1 = 400 ∧
      (handle_expenses_post req newId db).1 = db) ∧
    (∀ s : String, req.value = some (.jstr s) → pyFloatStr s = none → asciiOnly s = true →
      (handle_expenses_post req newId db).2.1 = 400 ∧
      (handle_expenses_post req newId db).1 = db) ∧
    (pyFloat (req.value.getD .jnull) = .error .typeError →
      (req.value.getD .jnull).truthy = false →
      (handle_expenses_post req newId db).2.1 = 400 ∧
      (handle_expenses_post req newId db).1 = db) ∧
    (pyFloat (req.value.getD .jnull) = .error .typeError →
      (req.value.getD .jnull).truthy = true →
      optTruthy req.date = true → optTruthy req.category = true →
      (handle_expenses_post req newId db).2.1 = 500 ∧
      (handle_expenses_post req newId db).1 = db) ∧
    (pyFloat (req.value.getD .jnull) = .error .overflowError →
      (req.value.getD .jnull).truthy = true →
      optTruthy req.date = true → optTruthy req.category = true →
      (handle_expenses_post req newId db).2.1 = 500 ∧
      (handle_expenses_post req newId db).1 = db) := by
  refine ⟨?_, ?_, ?_, ?_, ?_⟩
  · intro v hok hle
    by_cases hc : ((req.value.getD .jnull).truthy = true ∧ optTruthy req.date = true ∧
        optTruthy req.category = true)
    · simp [handle_expenses_post, hc, hok, hle]
    · simp [handle_expenses_post, hc]
  · intro s hval hparse _
    have herr : pyFloat (req.value.getD .jnull) = .error .valueError := by
      rw [hval]
      simp [pyFloat, hparse]
    by_cases hc : ((req.value.getD .jnull).truthy = true ∧ optTruthy req.date = true ∧
        optTruthy req.category = true)
    · simp [handle_expenses_post, hc, herr]
    · simp [handle_expenses_post, hc]
  · intro _ hfalse
    simp [handle_expenses_post, hfalse]
  · intro herr ht hd hcat
    simp [handle_expenses_post, herr, ht, hd, hcat]
  · intro herr ht hd hcat
    simp [handle_expenses_post, herr, ht, hd, hcat]

/-- C3 (witness): a create request with value 0 is rejected with 400 and
persists nothing. -/
theorem c3_witness :
    (handle_expenses_post ⟨some (.jfloat (.finite 0)), some "2024-01-01", some "Comida", none⟩
      "u2" dbSample).2.1 = 400 ∧
    (handle_expenses_post ⟨some (.jfloat (.finite 0)), some "2024-01-01", some "Comida", none⟩
      "u2" dbSample).1 = dbSample :=
  (c3_amended_create_rejects ⟨some (.jfloat (.finite 0)), some "2024-01-01", some "Comida", none⟩
    "u2" dbSample).1 (.finite 0) rfl (by decide)

/-- C8 (counterexample): creating a category with an explicit JSON null
budget — which is supplied and does not parse as a number — is answered
500 (uncaught `TypeError`), not 400 as claimed; nothing is inserted. -/
theorem c8_counterexample :
    (handle_categories_post ⟨some "Viagem", some .jnull⟩ dbSample).2.1 = 500 ∧
    (handle_categories_post ⟨some "Viagem", some .jnull⟩ dbSample).2.1 ≠ 400 ∧
    (handle_categories_post ⟨some "Viagem", some .jnull⟩ dbSample).1 = dbSample := by
  decide

/-- C8 (amended): category creation answers 400 on an empty or missing
name, 409 on a duplicate name (nothing mutated), 400 when the budget
converts to a float comparing `< 0` or is an ASCII string `float`
rejects, and 500 (nothing inserted) when the supplied budget is a
non-numeric JSON value such as null or an array, or a JSON integer
beyond the double range; otherwise it inserts the category with the
exact name and budget supplied (0 when omitted) and answers 201, and a
subsequent list() includes the new record. -/
theorem c8_amended_category_create (req : CatReq) (db : DB) :
    (req.name.getD "" = "" → handle_categories_post req db = (db, 400, none)) ∧
    (∀ name : String, req.name = some name → name ≠ "" →
      (∃ c ∈ db.categories, c.name = name) →
      handle_categories_post req db = (db, 409, none)) ∧
    (∀ name : String, ∀ b : PyFloat, req.name = some name → name ≠ "" →
      (∀ c ∈ db.categories, c.name ≠ name) →
      pyFloat (req.budget.getD (.jfloat (.finite 0))) = .ok b → b.ltZero = false →
      handle_categories_post req db =
        (⟨db.categories ++ [⟨db.nextCatId, name, b⟩], db.expenses, db.nextCatId + 1⟩, 201,
          some ⟨db.nextCatId, name, b⟩) ∧
      (⟨db.nextCatId, name, b⟩ : Category) ∈
        handle_categories_get (handle_categories_post req db).1) ∧
    (req.budget = none → pyFloat (req.budget.getD (.jfloat (.finite 0))) = .ok (.finite 0)) ∧
    (∀ name : String, ∀ b : PyFloat, req.name = some name → name ≠ "" →
      (∀ c ∈ db.categories, c.name ≠ name) →
      pyFloat (req.budget.getD (.jfloat (.finite 0))) = .ok b → b.ltZero = true →
      handle_categories_post req db = (db, 400, none)) ∧
    (∀ name : String, ∀ s : String, req.name = some name → name ≠ "" →
      (∀ c ∈ db.categories, c.name ≠ name) →
      req.budget = some (.jstr s) → pyFloatStr s = none → asciiOnly s = true →
      handle_categories_post req db = (db, 400, none)) ∧
    (∀ name : String, req.name = some name → name ≠ "" →
      (∀ c ∈ db.categories, c.name ≠ name) →
      pyFloat (req.budget.getD (.jfloat (.finite 0))) = .error .typeError →
      handle_categories_post req db = (db, 500, none)) ∧
    (∀ name : String, req.name = some name → name ≠ "" →
      (∀ c ∈ db.categories, c.name ≠ name) →
      pyFloat (req.budget.getD (.jfloat (.finite 0))) = .error .overflowError →
      handle_categories_post req db = (db, 500, none)) := by
  refine ⟨?_, ?_, ?_, ?_, ?_, ?_, ?_, ?_⟩
  · intro h
    simp only [handle_categories_post, if_pos h]
  · intro name hn hname hex
    have hdup : (db.categories.find? (fun c => c.name == name)).isSome = true :=
      find_name_isSome.mpr hex
    simp only [handle_categories_post, hn, Option.getD_some]
    rw [if_neg hname, if_pos hdup]
  · intro name b hn hname hall hb hpos
    have hnone : db.categories.find? (fun c => c.name == name) = none :=
      find_name_eq_none.mpr hall
    have h1 : handle_categories_post req db =
        (⟨db.categories ++ [⟨db.nextCatId, name, b⟩], db.expenses, db.nextCatId + 1⟩, 201,
          some ⟨db.nextCatId, name, b⟩) := by
      simp only [handle_categories_post, hn, Option.getD_some, hnone, hb]
      rw [if_neg hname, if_neg (by simp), if_neg (by simp [hpos])]
    refine ⟨h1, ?_⟩
    rw [h1]
    simp [handle_categories_get]
  · intro h
    rw [h]
    rfl
  · intro name b hn hname hall hb hneg
    have hnone : db.categories.find? (fun c => c.name == name) = none :=
      find_name_eq_none.mpr hall
    simp only [handle_categories_post, hn, Option.getD_some, hnone, hb]
    rw [if_neg hname, if_neg (by simp), if_pos hneg]
  · intro name s hn hname hall hbj hparse _
    have hnone : db.categories.find? (fun c => c.name == name) = none :=
      find_name_eq_none.mpr hall
    have hb : pyFloat (req.budget.getD (.jfloat (.finite 0))) = .error .valueError := by
      rw [hbj]
      simp [pyFloat, hparse]
    simp only [handle_categories_post, hn, Option.getD_some, hnone, hb]
    rw [if_neg hname, if_neg (by simp)]
  · intro name hn hname hall hb
    have hnone : db.categories.find? (fun c => c.name == name) = none :=
      find_name_eq_none.mpr hall
    simp only [handle_categories_post, hn, Option.getD_some, hnone, hb]
    rw [if_neg hname, if_neg (by simp)]
  · intro name hn hname hall hb
    have hnone : db.categories.find? (fun c => c.name == name) = none :=
      find_name_eq_none.mpr hall
    simp only [handle_categories_post, hn, Option.getD_some, hnone, hb]
    rw [if_neg hname, if_neg (by simp)]

/-- C8 (witness): creating "Viagem" with budget 500 against the sample
state inserts it with exactly that name and budget and returns 201, and
the list afterwards contains it. -/
theorem c8_witness :
    handle_categories_post ⟨some "Viagem", some (.jfloat (.finite 500))⟩ dbSample =
      (⟨dbSample.categories ++ [⟨3, "Viagem", .finite 500⟩], dbSample.expenses, 4⟩, 201,
        some ⟨3, "Viagem", .finite 500⟩) ∧
    (⟨3, "Viagem", .finite 500⟩ : Category) ∈
      handle_categories_get
        (handle_categories_post ⟨some "Viagem", some (.jfloat (.finite 500))⟩ dbSample).1 :=
  (c8_amended_category_create ⟨some "Viagem", some (.jfloat (.finite 500))⟩ dbSample).2.2.1
    "Viagem" (.finite 500) rfl (by decide) (by decide) rfl (by decide)

/-- C5: updating an existing expense with an otherwise valid body whose
category name does not resolve to an existing category fails with 404
and leaves the database — in particular every field of the original
expense — unchanged: no fallback to "Outros" on update. -/
theorem c5_update_unknown_category (eid : String) (req : ExpReq) (db : DB) (exp : Expense)
    (hfind : db.expenses.find? (fun e => e.id == eid) = some exp)
    (j : JVal) (hval : req.value = some j) (ht : j.truthy = true)
    (v : PyFloat) (hok : pyFloat j = .ok v) (hpos : v.leZero = false)
    (hd : optTruthy req.date = true)
    (cname : String) (hcat : req.category = some cname) (hcname : cname ≠ "")
    (hunknown : ∀ c ∈ db.categories, c.name ≠ cname) :
    (handle_expense_put eid req db).2.1 = 404 ∧ (handle_expense_put eid req db).1 = db := by
  have hnone : db.categories.find? (fun c => c.name == cname) = none :=
    find_name_eq_none.mpr hunknown
  have hcatT : optTruthy (some cname) = true := by
    simp [optTruthy, hcname]
  simp [handle_expense_put, hfind, hval, ht, hd, hcatT, hok, hpos, hcat, hnone]

/-- C5 (witness): updating expense "e1" with the unknown category "Nope"
yields 404 and leaves the sample state unchanged. -/
theorem c5_witness :
    (handle_expense_put "e1" ⟨some (.jfloat (.finite 7)), some "2024-02-02", some "Nope", some "d"⟩
      dbSample).2.1 = 404 ∧
    (handle_expense_put "e1" ⟨some (.jfloat (.finite 7)), some "2024-02-02", some "Nope", some "d"⟩
      dbSample).1 = dbSample :=
  c5_update_unknown_category "e1"
    ⟨some (.jfloat (.finite 7)), some "2024-02-02", some "Nope", some "d"⟩
    dbSample ⟨"e1", .finite 10, "2024-01-02", none, 1⟩ (by decide) (.jfloat (.finite 7)) rfl
    (by decide) (.finite 7) rfl (by decide) (by decide) "Nope" rfl (by decide) (by decide)

/-- C4: an expense-create request with a valid value and date but a
category name matching no existing category succeeds with 201; the new
expense is attached to a category named "Outros" (created on demand with
budget 0 and the next id when absent), and its serialized `category`
field is "Outros". -/
theorem c4_create_unknown_category_falls_back (req : ExpReq) (newId : String) (db : DB)
    (hwf : WF db)
    (j : JVal) (hval : req.value = some j) (ht : j.truthy = true)
    (v : PyFloat) (hok : pyFloat j = .ok v) (hpos : v.leZero = false)
    (hd : optTruthy req.date = true)
    (cname : String) (hcat : req.category = some cname) (hcname : cname ≠ "")
    (hunknown : ∀ c ∈ db.categories, c.name ≠ cname) :
    (handle_expenses_post req newId db).2.1 = 201 ∧
    (∃ out : ExpenseOut, (handle_expenses_post req newId db).2.2 = some out ∧
      out.category = some "Outros") ∧
    (∃ c ∈ (handle_expenses_post req newId db).1.categories, c.name = "Outros" ∧
      (∃ e ∈ (handle_expenses_post req newId db).1.expenses,
        e.id = newId ∧ e.category_id = c.id) ∧
      ((∀ c0 ∈ db.categories, c0.name ≠ "Outros") → c.budget = .finite 0)) := by
  have hnone : db.categories.find? (fun c => c.name == cname) = none :=
    find_name_eq_none.mpr hunknown
  have hcatT : optTruthy (some cname) = true := by
    simp [optTruthy, hcname]
  rcases hO : db.categories.find? (fun c => c.name == "Outros") with _ | o
  · -- "Outros" absent: it is created with the next id and budget 0
    have key : handle_expenses_post req newId db =
        (⟨db.categories ++ [⟨db.nextCatId, "Outros", .finite 0⟩],
          db.expenses ++ [⟨newId, v, req.date.getD "", req.description, db.nextCatId⟩],
          db.nextCatId + 1⟩, 201,
          some (expenseToDict
            ⟨db.categories ++ [⟨db.nextCatId, "Outros", .finite 0⟩],
              db.expenses ++ [⟨newId, v, req.date.getD "", req.description, db.nextCatId⟩],
              db.nextCatId + 1⟩
            ⟨newId, v, req.date.getD "", req.description, db.nextCatId⟩)) := by
      simp [handle_expenses_post, hval, ht, hd, hcatT, hok, hpos, hcat, hnone,
        resolveOutros, hO]
    rw [key]
    refine ⟨rfl, ⟨_, rfl, ?_⟩, ⟨db.nextCatId, "Outros", .finite 0⟩, by simp, rfl,
      ⟨⟨newId, v, req.date.getD "", req.description, db.nextCatId⟩, by simp, rfl, rfl⟩,
      fun _ => rfl⟩
    simp only [expenseToDict]
    rw [find_id_append_fresh hwf.2.2 ⟨db.nextCatId, "Outros", .finite 0⟩ rfl]
    rfl
  · -- "Outros" exists: the expense is attached to it
    have ho_mem : o ∈ db.categories := List.mem_of_find?_eq_some hO
    have ho_name : o.name = "Outros" := by
      have := List.find?_some hO
      simpa using this
    have key : handle_expenses_post req newId db =
        (⟨db.categories,
          db.expenses ++ [⟨newId, v, req.date.getD "", req.description, o.id⟩], db.nextCatId⟩,
          201,
          some (expenseToDict
            ⟨db.categories,
              db.expenses ++ [⟨newId, v, req.date.getD "", req.description, o.id⟩], db.nextCatId⟩
            ⟨newId, v, req.date.getD "", req.description, o.id⟩)) := by
      simp [handle_expenses_post, hval, ht, hd, hcatT, hok, hpos, hcat, hnone,
        resolveOutros, hO]
    rw [key]
    refine ⟨rfl, ⟨_, rfl, ?_⟩, o, ho_mem, ho_name,
      ⟨⟨newId, v, req.date.getD "", req.description, o.id⟩, by simp, rfl, rfl⟩,
      fun habs => absurd ho_name (habs o ho_mem)⟩
    simp only [expenseToDict]
    rw [find_id_of_nodup hwf.1 ho_mem rfl]
    simp [ho_name]

/-- C4 (witness): creating an expense with the unknown category "Viagem"
against a state without "Outros" succeeds with 201, creates "Outros"
with budget 0, attaches the expense to it, and serializes its category
as "Outros". -/
theorem c4_witness :
    (handle_expenses_post ⟨some (.jfloat (.finite 7)), some "2024-03-01", some "Viagem", none⟩
      "u3" dbNoOutros).2.1 = 201 ∧
    (∃ out : ExpenseOut,
      (handle_expenses_post ⟨some (.jfloat (.finite 7)), some "2024-03-01", some "Viagem", none⟩
        "u3" dbNoOutros).2.2 = some out ∧ out.category = some "Outros") ∧
    (∃ c ∈ (handle_expenses_post ⟨some (.jfloat (.finite 7)), some "2024-03-01", some "Viagem", none⟩
        "u3" dbNoOutros).1.categories, c.name = "Outros" ∧
      (∃ e ∈ (handle_expenses_post ⟨some (.jfloat (.finite 7)), some "2024-03-01", some "Viagem", none⟩
          "u3" dbNoOutros).1.expenses, e.id = "u3" ∧ e.category_id = c.id) ∧
      ((∀ c0 ∈ dbNoOutros.categories, c0.name ≠ "Outros") → c.budget = .finite 0)) :=
  c4_create_unknown_category_falls_back
    ⟨some (.jfloat (.finite 7)), some "2024-03-01", some "Viagem", none⟩ "u3" dbNoOutros
    (by decide) (.jfloat (.finite 7)) rfl (by decide) (.finite 7) rfl (by decide) (by decide)
    "Viagem" rfl (by decide) (by decide)

/-- C9: category update answers 404 on an unknown id and 400 on a
missing/empty name; given an existing category, it answers 409 exactly
when some category already owns the new name and that name differs from
the updated category's own name (so renaming a category to its own name
succeeds), mutating nothing on 409; on success the name is always
overwritten, and a supplied numeric budget (an explicit null counts as
not supplied, as in Python) is validated — a negative value or an
unparseable ASCII string gives 400 with nothing changed — and applied
together with the name. -/
theorem c9_category_update (cid : Nat) (req : CatReq) (db : DB) :
    (db.categories.find? (fun c => c.id == cid) = none →
      handle_category_put cid req db = (db, 404, none)) ∧
    (∀ cat : Category, db.categories.find? (fun c => c.id == cid) = some cat →
      req.name.getD "" = "" → handle_category_put cid req db = (db, 400, none)) ∧
    (∀ cat : Category, db.categories.find? (fun c => c.id == cid) = some cat →
      ∀ name : String, req.name = some name → name ≠ "" →
      ((handle_category_put cid req db).2.1 = 409 ↔
        (∃ c ∈ db.categories, c.name = name) ∧ name ≠ cat.name)) ∧
    ((handle_category_put cid req db).2.1 = 409 → (handle_category_put cid req db).1 = db) ∧
    (∀ cat : Category, db.categories.find? (fun c => c.id == cid) = some cat →
      ∀ name : String, req.name = some name → name ≠ "" →
      ¬((∃ c ∈ db.categories, c.name = name) ∧ name ≠ cat.name) →
      (req.budget = none ∨ req.budget = some .jnull) →
      handle_category_put cid req db =
        (⟨db.categories.map (fun x => if x.id == cat.id then ⟨cat.id, name, cat.budget⟩ else x),
          db.expenses, db.nextCatId⟩, 200, some ⟨cat.id, name, cat.budget⟩)) ∧
    (∀ cat : Category, db.categories.find? (fun c => c.id == cid) = some cat →
      ∀ name : String, req.name = some name → name ≠ "" →
      ¬((∃ c ∈ db.categories, c.name = name) ∧ name ≠ cat.name) →
      ∀ bj : JVal, ∀ b : PyFloat, req.budget = some bj → pyFloat bj = .ok b →
      b.ltZero = false →
      handle_category_put cid req db =
        (⟨db.categories.map (fun x => if x.id == cat.id then ⟨cat.id, name, b⟩ else x),
          db.expenses, db.nextCatId⟩, 200, some ⟨cat.id, name, b⟩)) ∧
    (∀ cat : Category, db.categories.find? (fun c => c.id == cid) = some cat →
      ∀ name : String, req.name = some name → name ≠ "" →
      ¬((∃ c ∈ db.categories, c.name = name) ∧ name ≠ cat.name) →
      ∀ bj : JVal, ∀ b : PyFloat, req.budget = some bj → pyFloat bj = .ok b →
      b.ltZero = true →
      handle_category_put cid req db = (db, 400, none)) ∧
    (∀ cat : Category, db.categories.find? (fun c => c.id == cid) = some cat →
      ∀ name : String, req.name = some name → name ≠ "" →
      ¬((∃ c ∈ db.categories, c.name = name) ∧ name ≠ cat.name) →
      ∀ s : String, req.budget = some (.jstr s) → pyFloatStr s = none → asciiOnly s = true →
      handle_category_put cid req db = (db, 400, none)) := by
  refine ⟨?_, ?_, ?_, ?_, ?_, ?_, ?_, ?_⟩
  · intro h
    simp [handle_category_put, h]
  · intro cat hfind h
    simp [handle_category_put, hfind, h]
  · intro cat hfind name hn hname
    by_cases hcond : ((∃ c ∈ db.categories, c.name = name) ∧ name ≠ cat.name)
    · constructor
      · intro _
        exact hcond
      · intro _
        simp [handle_category_put, hfind, hn, hname, hcond]
    · constructor
      · intro h409
        exfalso
        rcases hbj : req.budget with _ | bj
        · simp [handle_category_put, hfind, hn, hname, hcond, hbj] at h409
        · cases bj with
          | jnull => simp [handle_category_put, hfind, hn, hname, hcond, hbj] at h409
          | jbool b' =>
              cases hpf : pyFloat (.jbool b') with
              | error err =>
                  cases err <;>
                    simp [handle_category_put, hfind, hn, hname, hcond, hbj, hpf] at h409
              | ok b =>
                  by_cases hb : b.ltZero = true <;>
                    simp [handle_category_put, hfind, hn, hname, hcond, hbj, hpf, hb] at h409
          | jint n =>
              cases hpf : pyFloat (.jint n) with
              | error err =>
                  cases err <;>
                    simp [handle_category_put, hfind, hn, hname, hcond, hbj, hpf] at h409
              | ok b =>
                  by_cases hb : b.ltZero = true <;>
                    simp [handle_category_put, hfind, hn, hname, hcond, hbj, hpf, hb] at h409
          | jfloat f =>
              cases hpf : pyFloat (.jfloat f) with
              | error err => simp [pyFloat] at hpf
              | ok b =>
                  by_cases hb : b.ltZero = true <;>
                    simp [handle_category_put, hfind, hn, hname, hcond, hbj, hpf, hb] at h409
          | jstr str =>
              cases hpf : pyFloat (.jstr str) with
              | error err =>
                  cases err <;>
                    simp [handle_category_put, hfind, hn, hname, hcond, hbj, hpf] at h409
              | ok b =>
                  by_cases hb : b.ltZero = true <;>
                    simp [handle_category_put, hfind, hn, hname, hcond, hbj, hpf, hb] at h409
          | jarr ls =>
              cases hpf : pyFloat (.jarr ls) with
              | error err =>
                  cases err <;>
                    simp [handle_category_put, hfind, hn, hname, hcond, hbj, hpf] at h409
              | ok b => simp [pyFloat] at hpf
      · intro hex
        exact absurd hex hcond
  · intro h409
    rcases hfind : db.categories.find? (fun c => c.id == cid) with _ | cat
    · simp [handle_category_put, hfind]
    · by_cases hname : req.name.getD "" = ""
      · simp [handle_category_put, hfind, hname] at h409
      · by_cases hcond : ((∃ c ∈ db.categories, c.name = req.name.getD "") ∧
            req.name.getD "" ≠ cat.name)
        · simp [handle_category_put, hfind, hname, hcond]
        · exfalso
          rcases hbj : req.budget with _ | bj
          · simp [handle_category_put, hfind, hname, hcond, hbj] at h409
          · cases bj with
            | jnull => simp [handle_category_put, hfind, hname, hcond, hbj] at h409
            | jbool b' =>
                cases hpf : pyFloat (.jbool b') with
                | error err =>
                    cases err <;>
                      simp [handle_category_put, hfind, hname, hcond, hbj, hpf] at h409
                | ok b =>
                    by_cases hb : b.ltZero = true <;>
                      simp [handle_category_put, hfind, hname, hcond, hbj, hpf, hb] at h409
            | jint n =>
                cases hpf : pyFloat (.jint n) with
                | error err =>
                    cases err <;>
                      simp [handle_category_put, hfind, hname, hcond, hbj, hpf] at h409
                | ok b =>
                    by_cases hb : b.ltZero = true <;>
                      simp [handle_category_put, hfind, hname, hcond, hbj, hpf, hb] at h409
            | jfloat f =>
                cases hpf : pyFloat (.jfloat f) with
                | error err => simp [pyFloat] at hpf
                | ok b =>
                    by_cases hb : b.ltZero = true <;>
                      simp [handle_category_put, hfind, hname, hcond, hbj, hpf, hb] at h409
            | jstr str =>
                cases hpf : pyFloat (.jstr str) with
                | error err =>
                    cases err <;>
                      simp [handle_category_put, hfind, hname, hcond, hbj, hpf] at h409
                | ok b =>
                    by_cases hb : b.ltZero = true <;>
                      simp [handle_category_put, hfind, hname, hcond, hbj, hpf, hb] at h409
            | jarr ls =>
                cases hpf : pyFloat (.jarr ls) with
                | error err =>
                    cases err <;>
                      simp [handle_category_put, hfind, hname, hcond, hbj, hpf] at h409
                | ok b => simp [pyFloat] at hpf
  · intro cat hfind name hn hname hnc hbud
    rcases hbud with hb | hb <;> simp [handle_category_put, hfind, hn, hname, hnc, hb]
  · intro cat hfind name hn hname hnc bj b hbj hpf hb
    cases bj with
    | jnull => simp [pyFloat] at hpf
    | jbool b' => simp [handle_category_put, hfind, hn, hname, hnc, hbj, hpf, hb]
    | jint n => simp [handle_category_put, hfind, hn, hname, hnc, hbj, hpf, hb]
    | jfloat f => simp [handle_category_put, hfind, hn, hname, hnc, hbj, hpf, hb]
    | jstr str => simp [handle_category_put, hfind, hn, hname, hnc, hbj, hpf, hb]
    | jarr ls => simp [pyFloat] at hpf
  · intro cat hfind name hn hname hnc bj b hbj hpf hb
    cases bj with
    | jnull => simp [pyFloat] at hpf
    | jbool b' => simp [handle_category_put, hfind, hn, hname, hnc, hbj, hpf, hb]
    | jint n => simp [handle_category_put, hfind, hn, hname, hnc, hbj, hpf, hb]
    | jfloat f => simp [handle_category_put, hfind, hn, hname, hnc, hbj, hpf, hb]
    | jstr str => simp [handle_category_put, hfind, hn, hname, hnc, hbj, hpf, hb]
    | jarr ls => simp [pyFloat] at hpf
  · intro cat hfind name hn hname hnc s hbj hparse _
    have hpf : pyFloat (.jstr s) = .error .valueError := by
      simp [pyFloat, hparse]
    simp [handle_category_put, hfind, hn, hname, hnc, hbj, hpf]

/-- C9 (witness): renaming category 1 to "Bebida" with budget 20
succeeds with 200, overwriting name and budget. -/
theorem c9_witness :
    handle_category_put 1 ⟨some "Bebida", some (.jfloat (.finite 20))⟩ dbSample =
      (⟨[⟨1, "Bebida", .finite 20⟩, ⟨2, "Outros", .finite 0⟩], dbSample.expenses, 3⟩, 200,
        some ⟨1, "Bebida", .finite 20⟩) :=
  (c9_category_update 1 ⟨some "Bebida", some (.jfloat (.finite 20))⟩ dbSample).2.2.2.2.2.1
    ⟨1, "Comida", .finite 50⟩ (by decide) "Bebida" rfl (by decide) (by decide)
    (.jfloat (.finite 20)) (.finite 20) rfl rfl (by decide)

/-- C2 (counterexample): deleting category 1 ("Comida") of the sample
state, which still owns expense "e1", does not reach the claimed
200-with-reassignment: the flush-time de-association nulls the NOT NULL
foreign key, the commit raises IntegrityError, and the request answers
500 with the database unchanged — the category is not removed. -/
theorem c2_counterexample :
    (handle_category_delete 1 dbSample).2 = 500 ∧
    (handle_category_delete 1 dbSample).2 ≠ 200 ∧
    (handle_category_delete 1 dbSample).1 = dbSample ∧
    (⟨1, "Comida", .finite 50⟩ : Category) ∈ (handle_category_delete 1 dbSample).1.categories := by
  decide

/-- C2 (amended): DELETE /api/categories/id answers 404 on an unknown
id.  On a known id it first resolves "Outros" (creating it with budget
0 and the next id, committed immediately, when absent); if at least one
expense still references the category, the same-flush reassignment is
clobbered by the ORM's delete-time de-association of the NOT NULL
foreign key, so the commit fails and the request answers 500 with the
expense table unchanged and the category kept (only a newly created
"Outros" persists); a category referenced by no expense is removed and
answered 200. -/
theorem c2_category_delete (cid : Nat) (db : DB) (hwf : WF db) :
    (db.categories.find? (fun c => c.id == cid) = none →
      handle_category_delete cid db = (db, 404)) ∧
    (∀ cat : Category, db.categories.find? (fun c => c.id == cid) = some cat →
      (∃ e ∈ db.expenses, e.category_id = cat.id) →
      (handle_category_delete cid db).2 = 500 ∧
      (handle_category_delete cid db).1.expenses = db.expenses ∧
      cat ∈ (handle_category_delete cid db).1.categories ∧
      ((∃ o ∈ db.categories, o.name = "Outros") → (handle_category_delete cid db).1 = db) ∧
      ((∀ c ∈ db.categories, c.name ≠ "Outros") →
        (handle_category_delete cid db).1 =
          ⟨db.categories ++ [⟨db.nextCatId, "Outros", .finite 0⟩], db.expenses,
            db.nextCatId + 1⟩)) ∧
    (∀ cat : Category, db.categories.find? (fun c => c.id == cid) = some cat →
      (∀ e ∈ db.expenses, e.category_id ≠ cat.id) →
      (handle_category_delete cid db).2 = 200 ∧
      (handle_category_delete cid db).1.expenses = db.expenses ∧
      cat ∉ (handle_category_delete cid db).1.categories ∧
      (∀ c : Category, c ∈ (handle_category_delete cid db).1.categories ↔
        ((c ∈ db.categories ∧ c.id ≠ cat.id) ∨
          ((∀ c' ∈ db.categories, c'.name ≠ "Outros") ∧
            c = ⟨db.nextCatId, "Outros", .finite 0⟩)))) := by
  refine ⟨?_, ?_, ?_⟩
  · intro h
    simp [handle_category_delete, h]
  · rintro cat hfind ⟨e0, he0, hce0⟩
    have hany : db.expenses.any (fun e => e.category_id == cat.id) = true := by
      rw [List.any_eq_true]
      exact ⟨e0, he0, by simp [hce0]⟩
    rcases hO : db.categories.find? (fun c => c.name == "Outros") with _ | o
    · have hall : ∀ c ∈ db.categories, c.name ≠ "Outros" := find_name_eq_none.mp hO
      have key : handle_category_delete cid db =
          (⟨db.categories ++ [⟨db.nextCatId, "Outros", .finite 0⟩], db.expenses,
            db.nextCatId + 1⟩, 500) := by
        simp [handle_category_delete, hfind, resolveOutros, hO, hany]
      rw [key]
      refine ⟨rfl, rfl, List.mem_append_left _ (List.mem_of_find?_eq_some hfind), ?_,
        fun _ => rfl⟩
      rintro ⟨o, ho, hon⟩
      exact absurd hon (hall o ho)
    · have ho_name : o.name = "Outros" := by
        have := List.find?_some hO
        simpa using this
      have key : handle_category_delete cid db = (db, 500) := by
        simp [handle_category_delete, hfind, resolveOutros, hO, hany]
      rw [key]
      refine ⟨rfl, rfl, List.mem_of_find?_eq_some hfind, fun _ => rfl, ?_⟩
      intro hall
      exact absurd ho_name (hall o (List.mem_of_find?_eq_some hO))
  · intro cat hfind hnone
    have hcatmem : cat ∈ db.categories := List.mem_of_find?_eq_some hfind
    have hcatlt : cat.id < db.nextCatId := hwf.2.2 cat hcatmem
    have hany : ¬(db.expenses.any (fun e => e.category_id == cat.id) = true) := by
      rw [List.any_eq_true]
      rintro ⟨e, he, hbe⟩
      exact hnone e he (by simpa using hbe)
    rcases hO : db.categories.find? (fun c => c.name == "Outros") with _ | o
    · have hall : ∀ c ∈ db.categories, c.name ≠ "Outros" := find_name_eq_none.mp hO
      have key : handle_category_delete cid db =
          (⟨(db.categories ++ [(⟨db.nextCatId, "Outros", .finite 0⟩ : Category)]).filter
              (fun c => c.id != cat.id), db.expenses, db.nextCatId + 1⟩, 200) := by
        simp [handle_category_delete, hfind, resolveOutros, hO, hany]
      rw [key]
      refine ⟨rfl, rfl, ?_, ?_⟩
      · intro hmem
        simp [List.mem_filter] at hmem
      · intro c
        simp only [List.mem_filter, List.mem_append, List.mem_singleton, bne_iff_ne]
        constructor
        · rintro ⟨hm | rfl, hne⟩
          · exact .inl ⟨hm, hne⟩
          · exact .inr ⟨hall, rfl⟩
        · rintro (⟨hm, hne⟩ | ⟨_, rfl⟩)
          · exact ⟨.inl hm, hne⟩
          · refine ⟨.inr rfl, ?_⟩
            show db.nextCatId ≠ cat.id
            omega
    · have ho_name : o.name = "Outros" := by
        have := List.find?_some hO
        simpa using this
      have key : handle_category_delete cid db =
          (⟨db.categories.filter (fun c => c.id != cat.id), db.expenses, db.nextCatId⟩,
            200) := by
        simp [handle_category_delete, hfind, resolveOutros, hO, hany]
      rw [key]
      refine ⟨rfl, rfl, ?_, ?_⟩
      · intro hmem
        simp [List.mem_filter] at hmem
      · intro c
        simp only [List.mem_filter, bne_iff_ne]
        constructor
        · rintro ⟨hm, hne⟩
          exact .inl ⟨hm, hne⟩
        · rintro (⟨hm, hne⟩ | ⟨hallc, rfl⟩)
          · exact ⟨hm, hne⟩
          · exact absurd ho_name (hallc o (List.mem_of_find?_eq_some hO))

/-- C2 (witness): deleting category 1 ("Comida") from the expense-free
state removes it with 200; "Outros" is created first and kept. -/
theorem c2_witness :
    (handle_category_delete 1 dbNoOutros).2 = 200 ∧
    (handle_category_delete 1 dbNoOutros).1.expenses = dbNoOutros.expenses ∧
    (⟨1, "Comida", .finite 50⟩ : Category) ∉ (handle_category_delete 1 dbNoOutros).1.categories ∧
    (∀ c : Category, c ∈ (handle_category_delete 1 dbNoOutros).1.categories ↔
      ((c ∈ dbNoOutros.categories ∧ c.id ≠ 1) ∨
        ((∀ c' ∈ dbNoOutros.categories, c'.name ≠ "Outros") ∧
          c = ⟨2, "Outros", .finite 0⟩))) :=
  (c2_category_delete 1 dbNoOutros (by decide)).2.2 ⟨1, "Comida", .finite 50⟩ (by decide)
    (by decide)

/-- C7: a successful GET /api/expenses answer is ordered by date
descending (string-lexicographically); a nonempty category filter naming
no existing category yields 404; the answered list holds exactly the
stored expenses passing the filters, every returned record's resolved
category name equals a given category filter, and every returned
record's date equals a given date filter. -/
theorem c7_expense_listing (catF dateF : Option String) (db : DB) (hwf : WF db) :
    (∀ l : List ExpenseOut, (handle_expenses_get catF dateF db).2 = some l →
      List.Sorted outDateDesc l) ∧
    (∀ cf : String, catF = some cf → cf ≠ "" →
      (∀ c ∈ db.categories, c.name ≠ cf) →
      handle_expenses_get catF dateF db = (404, none)) ∧
    (∀ l : List ExpenseOut, (handle_expenses_get catF dateF db).2 = some l →
      ∀ x : ExpenseOut, x ∈ l ↔ ∃ e ∈ db.expenses,
        matchesFilters db catF dateF e = true ∧ x = expenseToDict db e) ∧
    (∀ cf : String, catF = some cf → cf ≠ "" →
      ∀ l : List ExpenseOut, (handle_expenses_get catF dateF db).2 = some l →
      ∀ x ∈ l, x.category = some cf) ∧
    (∀ d : String, dateF = some d → d ≠ "" →
      ∀ l : List ExpenseOut, (handle_expenses_get catF dateF db).2 = some l →
      ∀ x ∈ l, x.date = d) := by
  have hs : ∀ l2 : List Expense,
      List.Sorted outDateDesc ((l2.insertionSort dateDesc).map (expenseToDict db)) := by
    intro l2
    exact List.Pairwise.map _ (fun a b h => h) (List.sorted_insertionSort dateDesc l2)
  refine ⟨?_, ?_, ?_, ?_, ?_⟩
  · intro l hl
    by_cases hct : optTruthy catF = true
    · rcases hfc : db.categories.find? (fun c => c.name == catF.getD "") with _ | co
      · simp [handle_expenses_get, hct, hfc] at hl
      · by_cases hdt : optTruthy dateF = true
        · simp only [handle_expenses_get, hct, hfc, hdt, if_true, Option.some.injEq] at hl
          subst hl
          exact hs _
        · simp [handle_expenses_get, hct, hfc, hdt] at hl
          subst hl
          exact hs _
    · by_cases hdt : optTruthy dateF = true
      · simp [handle_expenses_get, hct, hdt] at hl
        subst hl
        exact hs _
      · simp [handle_expenses_get, hct, hdt] at hl
        subst hl
        exact hs _
  · intro cf hcf hne hall
    have hfc : db.categories.find? (fun c => c.name == cf) = none :=
      find_name_eq_none.mpr hall
    simp [handle_expenses_get, hcf, optTruthy, hne, hfc]
  · exact fun l hl x => expenses_get_mem catF dateF db l x hl
  · intro cf hcf hne l hl x hx
    obtain ⟨e, hee, hm, rfl⟩ := (expenses_get_mem catF dateF db l x hl).mp hx
    have hcto : optTruthy catF = true := by
      rw [hcf]
      simp [optTruthy, hne]
    rcases hfc : db.categories.find? (fun c => c.name == catF.getD "") with _ | co
    · simp [matchesFilters, hcto, hfc] at hm
    · have hc2 : e.category_id = co.id := by
        have hm' := hm
        simp [matchesFilters, hcto, hfc] at hm'
        tauto
      have hco_mem : co ∈ db.categories := List.mem_of_find?_eq_some hfc
      have hco_name : co.name = catF.getD "" := by
        have := List.find?_some hfc
        simpa using this
      show (expenseToDict db e).category = some cf
      simp only [expenseToDict]
      rw [find_id_of_nodup hwf.1 hco_mem hc2.symm]
      simp [hco_name, hcf]
  · intro d hd hdne l hl x hx
    obtain ⟨e, hee, hm, rfl⟩ := (expenses_get_mem catF dateF db l x hl).mp hx
    have hdto : optTruthy (some d) = true := by
      simp [optTruthy, hdne]
    have hdm : e.date = d := by
      have hm' := hm
      rw [hd] at hm'
      simp [matchesFilters, hdto] at hm'
      tauto
    show (expenseToDict db e).date = d
    simp only [expenseToDict]
    exact hdm

/-- C7 (witness): listing with the category filter "Comida" on the
sample state. -/
theorem c7_witness :
    (∀ l : List ExpenseOut, (handle_expenses_get (some "Comida") none dbSample).2 = some l →
      List.Sorted outDateDesc l) ∧
    (∀ cf : String, (some "Comida" : Option String) = some cf → cf ≠ "" →
      (∀ c ∈ dbSample.categories, c.name ≠ cf) →
      handle_expenses_get (some "Comida") none dbSample = (404, none)) ∧
    (∀ l : List ExpenseOut, (handle_expenses_get (some "Comida") none dbSample).2 = some l →
      ∀ x : ExpenseOut, x ∈ l ↔ ∃ e ∈ dbSample.expenses,
        matchesFilters dbSample (some "Comida") none e = true ∧ x = expenseToDict dbSample e) ∧
    (∀ cf : String, (some "Comida" : Option String) = some cf → cf ≠ "" →
      ∀ l : List ExpenseOut, (handle_expenses_get (some "Comida") none dbSample).2 = some l →
      ∀ x ∈ l, x.category = some cf) ∧
    (∀ d : String, (none : Option String) = some d → d ≠ "" →
      ∀ l : List ExpenseOut, (handle_expenses_get (some "Comida") none dbSample).2 = some l →
      ∀ x ∈ l, x.date = d) :=
  c7_expense_listing (some "Comida") none dbSample (by refine ⟨by decide, by decide, by decide⟩)

/-- C1: every API operation preserves the referential invariant — the
create/update handlers only attach expenses to existing or freshly
inserted categories, a category delete either fails with 500 changing
no row (when expenses still reference the category, the ORM's flush-time
de-association makes the commit raise IntegrityError) or removes a
category no expense references, and reset only removes expenses — and
the expense table, in particular its count, is unchanged across every
category delete. -/
theorem c1_referential_invariant :
    (∀ req db, refInv db → refInv (handle_categories_post req db).1) ∧
    (∀ cid req db, refInv db → refInv (handle_category_put cid req db).1) ∧
    (∀ cid db, refInv db → refInv (handle_category_delete cid db).1) ∧
    (∀ cid db, (handle_category_delete cid db).1.expenses = db.expenses ∧
      (handle_category_delete cid db).1.expenses.length = db.expenses.length) ∧
    (∀ req newId db, refInv db → refInv (handle_expenses_post req newId db).1) ∧
    (∀ eid req db, refInv db → refInv (handle_expense_put eid req db).1) ∧
    (∀ eid db, refInv db → refInv (handle_expense_delete eid db).1) ∧
    (∀ b db, refInv db → refInv (reset_data b db).1) := by
  refine ⟨?_, ?_, ?_, ?_, ?_, ?_, ?_, ?_⟩
  · -- category create
    intro req db h
    by_cases hname : req.name.getD "" = ""
    · simpa [handle_categories_post, hname] using h
    · by_cases hdup : (∃ c ∈ db.categories, c.name = req.name.getD "")
      · simpa [handle_categories_post, hname, hdup] using h
      · cases hpf : pyFloat (req.budget.getD (.jfloat (.finite 0))) with
        | error err =>
            cases err <;> simpa [handle_categories_post, hname, hdup, hpf] using h
        | ok b =>
            by_cases hb : b.ltZero = true
            · simpa [handle_categories_post, hname, hdup, hpf, hb] using h
            · have hnew : refInv ⟨db.categories ++ [⟨db.nextCatId, req.name.getD "", b⟩],
                  db.expenses, db.nextCatId + 1⟩ := by
                intro e he
                obtain ⟨c', hc', hid⟩ := h e he
                exact ⟨c', List.mem_append_left _ hc', hid⟩
              simpa [handle_categories_post, hname, hdup, hpf, hb] using hnew
  · -- category update
    intro cid req db h
    rcases hfind : db.categories.find? (fun c => c.id == cid) with _ | cat
    · simpa [handle_category_put, hfind] using h
    · by_cases hname : req.name.getD "" = ""
      · simpa [handle_category_put, hfind, hname] using h
      · by_cases hcond : ((∃ c ∈ db.categories, c.name = req.name.getD "") ∧
            req.name.getD "" ≠ cat.name)
        · simpa [handle_category_put, hfind, hname, hcond] using h
        · have hmap : ∀ nb : PyFloat, refInv ⟨db.categories.map (fun x =>
              if x.id == cat.id then ⟨cat.id, req.name.getD "", nb⟩ else x),
              db.expenses, db.nextCatId⟩ := by
            intro nb e he
            obtain ⟨c', hc', hid⟩ := h e he
            refine ⟨if c'.id == cat.id then ⟨cat.id, req.name.getD "", nb⟩ else c',
              List.mem_map_of_mem _ hc', ?_⟩
            by_cases hx : (c'.id == cat.id) = true
            · rw [if_pos hx]
              show cat.id = e.category_id
              rw [← beq_iff_eq.mp hx]
              exact hid
            · rw [if_neg hx]
              exact hid
          rcases hbj : req.budget with _ | bj
          · simpa [handle_category_put, hfind, hname, hcond, hbj] using hmap cat.budget
          · cases bj with
            | jnull =>
                simpa [handle_category_put, hfind, hname, hcond, hbj] using hmap cat.budget
            | jbool b' =>
                cases hpf : pyFloat (.jbool b') with
                | error err =>
                    cases err <;>
                      simpa [handle_category_put, hfind, hname, hcond, hbj, hpf] using h
                | ok b =>
                    by_cases hb : b.ltZero = true
                    · simpa [handle_category_put, hfind, hname, hcond, hbj, hpf, hb] using h
                    · simpa [handle_category_put, hfind, hname, hcond, hbj, hpf, hb] using hmap b
            | jint n =>
                cases hpf : pyFloat (.jint n) with
                | error err =>
                    cases err <;>
                      simpa [handle_category_put, hfind, hname, hcond, hbj, hpf] using h
                | ok b =>
                    by_cases hb : b.ltZero = true
                    · simpa [handle_category_put, hfind, hname, hcond, hbj, hpf, hb] using h
                    · simpa [handle_category_put, hfind, hname, hcond, hbj, hpf, hb] using hmap b
            | jfloat f =>
                cases hpf : pyFloat (.jfloat f) with
                | error err => simp [pyFloat] at hpf
                | ok b =>
                    by_cases hb : b.ltZero = true
                    · simpa [handle_category_put, hfind, hname, hcond, hbj, hpf, hb] using h
                    · simpa [handle_category_put, hfind, hname, hcond, hbj, hpf, hb] using hmap b
            | jstr str =>
                cases hpf : pyFloat (.jstr str) with
                | error err =>
                    cases err <;>
                      simpa [handle_category_put, hfind, hname, hcond, hbj, hpf] using h
                | ok b =>
                    by_cases hb : b.ltZero = true
                    · simpa [handle_category_put, hfind, hname, hcond, hbj, hpf, hb] using h
                    · simpa [handle_category_put, hfind, hname, hcond, hbj, hpf, hb] using hmap b
            | jarr ls =>
                cases hpf : pyFloat (.jarr ls) with
                | error err =>
                    cases err <;>
                      simpa [handle_category_put, hfind, hname, hcond, hbj, hpf] using h
                | ok b => simp [pyFloat] at hpf
  · -- category delete: either nothing changes (404 or 500) or the
    -- removed category had no expenses
    intro cid db h
    rcases hfind : db.categories.find? (fun c => c.id == cid) with _ | cat
    · simpa [handle_category_delete, hfind] using h
    · rcases hO : db.categories.find? (fun c => c.name == "Outros") with _ | o
      · by_cases hany : db.expenses.any (fun e => e.category_id == cat.id) = true
        · have key : (handle_category_delete cid db).1 =
              ⟨db.categories ++ [⟨db.nextCatId, "Outros", .finite 0⟩], db.expenses,
                db.nextCatId + 1⟩ := by
            simp [handle_category_delete, hfind, resolveOutros, hO, hany]
          rw [key]
          intro e he
          obtain ⟨c', hc', hid⟩ := h e he
          exact ⟨c', List.mem_append_left _ hc', hid⟩
        · have key : (handle_category_delete cid db).1 =
              ⟨(db.categories ++ [(⟨db.nextCatId, "Outros", .finite 0⟩ : Category)]).filter
                  (fun c => c.id != cat.id), db.expenses, db.nextCatId + 1⟩ := by
            simp [handle_category_delete, hfind, resolveOutros, hO, hany]
          rw [key]
          intro e he
          obtain ⟨c', hc', hid⟩ := h e he
          have hne : c'.id ≠ cat.id := by
            intro hEq
            apply hany
            rw [List.any_eq_true]
            refine ⟨e, he, ?_⟩
            have hec : e.category_id = cat.id := by rw [← hid, hEq]
            simp [hec]
          exact ⟨c', List.mem_filter.mpr ⟨List.mem_append_left _ hc',
            by simpa [bne_iff_ne] using hne⟩, hid⟩
      · by_cases hany : db.expenses.any (fun e => e.category_id == cat.id) = true
        · have key : (handle_category_delete cid db).1 = db := by
            simp [handle_category_delete, hfind, resolveOutros, hO, hany]
          rw [key]
          exact h
        · have key : (handle_category_delete cid db).1 =
              ⟨db.categories.filter (fun c => c.id != cat.id), db.expenses, db.nextCatId⟩ := by
            simp [handle_category_delete, hfind, resolveOutros, hO, hany]
          rw [key]
          intro e he
          obtain ⟨c', hc', hid⟩ := h e he
          have hne : c'.id ≠ cat.id := by
            intro hEq
            apply hany
            rw [List.any_eq_true]
            refine ⟨e, he, ?_⟩
            have hec : e.category_id = cat.id := by rw [← hid, hEq]
            simp [hec]
          exact ⟨c', List.mem_filter.mpr ⟨hc', by simpa [bne_iff_ne] using hne⟩, hid⟩
  · -- category delete never touches the expense table
    intro cid db
    rcases hfind : db.categories.find? (fun c => c.id == cid) with _ | cat
    · simp [handle_category_delete, hfind]
    · rcases hO : db.categories.find? (fun c => c.name == "Outros") with _ | o <;>
        by_cases hany : db.expenses.any (fun e => e.category_id == cat.id) = true <;>
        simp [handle_category_delete, hfind, resolveOutros, hO, hany]
  · -- expense create
    intro req newId db h
    by_cases hc : ((req.value.getD .jnull).truthy = true ∧ optTruthy req.date = true ∧
        optTruthy req.category = true)
    · cases hpf : pyFloat (req.value.getD .jnull) with
      | error err => cases err <;> simpa [handle_expenses_post, hc, hpf] using h
      | ok v =>
          by_cases hv : v.leZero = true
          · simpa [handle_expenses_post, hc, hpf, hv] using h
          · rcases hfc : db.categories.find? (fun c => c.name == req.category.getD "")
              with _ | c
            · rcases hO : db.categories.find? (fun c => c.name == "Outros") with _ | o
              · have key : (handle_expenses_post req newId db).1 =
                    ⟨db.categories ++ [(⟨db.nextCatId, "Outros", .finite 0⟩ : Category)],
                      db.expenses ++
                        [⟨newId, v, req.date.getD "", req.description, db.nextCatId⟩],
                      db.nextCatId + 1⟩ := by
                  simp [handle_expenses_post, hc, hpf, hv, hfc, resolveOutros, hO]
                rw [key]
                intro e' he'
                rcases List.mem_append.mp he' with he | he
                · obtain ⟨c', hc', hid⟩ := h e' he
                  exact ⟨c', List.mem_append_left _ hc', hid⟩
                · rw [List.mem_singleton] at he
                  subst he
                  exact ⟨⟨db.nextCatId, "Outros", .finite 0⟩,
                    List.mem_append_right _ (by simp), rfl⟩
              · have key : (handle_expenses_post req newId db).1 =
                    ⟨db.categories,
                      db.expenses ++ [⟨newId, v, req.date.getD "", req.description, o.id⟩],
                      db.nextCatId⟩ := by
                  simp [handle_expenses_post, hc, hpf, hv, hfc, resolveOutros, hO]
                rw [key]
                intro e' he'
                rcases List.mem_append.mp he' with he | he
                · exact h e' he
                · rw [List.mem_singleton] at he
                  subst he
                  exact ⟨o, List.mem_of_find?_eq_some hO, rfl⟩
            · have key : (handle_expenses_post req newId db).1 =
                  ⟨db.categories,
                    db.expenses ++ [⟨newId, v, req.date.getD "", req.description, c.id⟩],
                    db.nextCatId⟩ := by
                simp [handle_expenses_post, hc, hpf, hv, hfc]
              rw [key]
              intro e' he'
              rcases List.mem_append.mp he' with he | he
              · exact h e' he
              · rw [List.mem_singleton] at he
                subst he
                exact ⟨c, List.mem_of_find?_eq_some hfc, rfl⟩
    · simpa [handle_expenses_post, hc] using h
  · -- expense update
    intro eid req db h
    rcases hfind : db.expenses.find? (fun e => e.id == eid) with _ | exp
    · simpa [handle_expense_put, hfind] using h
    · by_cases hc : ((req.value.getD .jnull).truthy = true ∧ optTruthy req.date = true ∧
          optTruthy req.category = true)
      · cases hpf : pyFloat (req.value.getD .jnull) with
        | error err => cases err <;> simpa [handle_expense_put, hfind, hc, hpf] using h
        | ok v =>
            by_cases hv : v.leZero = true
            · simpa [handle_expense_put, hfind, hc, hpf, hv] using h
            · rcases hfc : db.categories.find? (fun c => c.name == req.category.getD "")
                with _ | c
              · simpa [handle_expense_put, hfind, hc, hpf, hv, hfc] using h
              · have key : (handle_expense_put eid req db).1 =
                    ⟨db.categories,
                      db.expenses.map (fun x => if x.id == exp.id then
                        ⟨exp.id, v, req.date.getD "", req.description, c.id⟩ else x),
                      db.nextCatId⟩ := by
                  simp [handle_expense_put, hfind, hc, hpf, hv, hfc]
                rw [key]
                intro e' he'
                obtain ⟨e, he, rfl⟩ := List.mem_map.mp he'
                by_cases hx : (e.id == exp.id) = true
                · exact ⟨c, List.mem_of_find?_eq_some hfc, by simp [hx]⟩
                · obtain ⟨c', hc', hid⟩ := h e he
                  exact ⟨c', hc', by simpa [hx] using hid⟩
      · simpa [handle_expense_put, hfind, hc] using h
  · -- expense delete
    intro eid db h
    rcases hfind : db.expenses.find? (fun e => e.id == eid) with _ | exp
    · simpa [handle_expense_delete, hfind] using h
    · have key : (handle_expense_delete eid db).1 =
          ⟨db.categories, db.expenses.filter (fun e => e.id != exp.id), db.nextCatId⟩ := by
        simp [handle_expense_delete, hfind]
      rw [key]
      intro e' he'
      exact h e' (List.mem_filter.mp he').1
  · -- reset
    intro b db h
    cases b with
    | false =>
        intro e he
        simp [reset_data] at he
    | true => simpa [reset_data] using h

/-- C1 (witness): the referential invariant of the sample state survives
the attempted deletion of category 1 (which fails with 500, its expense
still being attached). -/
theorem c1_witness : refInv (handle_category_delete 1 dbSample).1 :=
  c1_referential_invariant.2.2.1 1 dbSample (by decide)
